import Mathlib

/-!
Shallow embedding of the `buffered_allocator` crate.

The crate provides a fixed-capacity bump allocator (`FixBufferedAllocator`
in `src/lib.rs`) over a caller-supplied byte buffer, a single-owner restart
coordinator (`RestartableFBA` in `src/lib.rs`) and a thread-safe restart
coordinator (`sync::RestartableFBA` in `src/sync.rs`).

Machine integers: Rust `usize` arithmetic is modelled over `Nat` with the
64-bit bound `USIZE = 2 ^ 64` made explicit; `checked_add` / `checked_mul`
fail exactly when the mathematical result does not fit below `USIZE`.
Pointers returned by `alloc_raw` are modelled as offsets from the buffer
base; the null pointer returned on failure becomes `none`.
The buffer itself is a `List Nat` of bytes; its length is the capacity.
-/

/-- `2 ^ 64`: one past the largest `usize` value on the 64-bit targets the
crate is compiled for. -/
def USIZE : Nat := 2 ^ 64

/-- `isize::MAX` on a 64-bit target, the bound enforced by
`Layout::from_size_align`. -/
def ISIZE_MAX : Nat := 2 ^ 63 - 1

/-- Rust `usize::checked_add`: `some` of the sum when it fits in 64 bits. -/
def checked_add (a b : Nat) : Option Nat :=
  if a + b < USIZE then some (a + b) else none

/-- Rust `usize::checked_mul`: `some` of the product when it fits in 64 bits. -/
def checked_mul (a b : Nat) : Option Nat :=
  if a * b < USIZE then some (a * b) else none

/-- Rust `usize::wrapping_neg`: two's-complement negation modulo `2 ^ 64`. -/
def wrapping_neg (a : Nat) : Nat :=
  (USIZE - a % USIZE) % USIZE

/-- Rust `usize::is_power_of_two`. -/
def isPow2 (n : Nat) : Bool :=
  n ≠ 0 && n &&& (n - 1) == 0

/-- `std::alloc::Layout`: a size and an alignment. -/
structure Layout where
  size : Nat
  align : Nat
deriving Repr, DecidableEq

/-- `Layout::from_size_align(size, align)`: requires `align` to be a power
of two and `size <= isize::MAX - (align - 1)`. -/
def Layout.from_size_align (size align : Nat) : Option Layout :=
  if isPow2 align && size ≤ ISIZE_MAX - (align - 1) then
    some ⟨size, align⟩
  else
    none

/-- `FixBufferedAllocator<'buf>` from `src/lib.rs`: the borrowed byte buffer
and the bump cursor. The capacity is `buf.length`. -/
structure FixBufferedAllocator where
  buf : List Nat
  offset : Nat
deriving Repr, DecidableEq

namespace FixBufferedAllocator

/-- `FixBufferedAllocator::new(buf)`: cursor starts at 0. -/
def new (buf : List Nat) : FixBufferedAllocator :=
  { buf := buf, offset := 0 }

/-- `FixBufferedAllocator::padding`:
`(self.offset.wrapping_neg()) & (align - 1)`. -/
def padding (a : FixBufferedAllocator) (align : Nat) : Nat :=
  wrapping_neg a.offset &&& (align - 1)

/-- `FixBufferedAllocator::alloc_raw(layout)`. Returns the allocated
address as an offset from the buffer base (`none` models the null pointer)
together with the updated allocator. -/
def alloc_raw (a : FixBufferedAllocator) (layout : Layout) :
    Option Nat × FixBufferedAllocator :=
  match checked_add a.offset (a.padding layout.align) with
  | none => (none, a)
  | some aligned_offset =>
    match checked_add aligned_offset layout.size with
    | none => (none, a)
    | some total =>
      if total > a.buf.length then (none, a)
      else (some aligned_offset, { a with offset := total })

/-- `FixBufferedAllocator::alloc(layout)`: thin wrapper around `alloc_raw`
turning the null pointer into `None`. -/
def alloc (a : FixBufferedAllocator) (layout : Layout) :
    Option Nat × FixBufferedAllocator :=
  alloc_raw a layout

/-- `FixBufferedAllocator::alloc_slice::<T>(length)` for an element type of
size `sizeT` and alignment `alignT`: checked size multiplication, layout
construction, then `alloc_raw`. Success returns the start offset of the
slice (the slice spans `length` elements). -/
def alloc_slice (a : FixBufferedAllocator) (sizeT alignT length : Nat) :
    Option Nat × FixBufferedAllocator :=
  match checked_mul sizeT length with
  | none => (none, a)
  | some size =>
    match Layout.from_size_align size alignT with
    | none => (none, a)
    | some layout => alloc_raw a layout

end FixBufferedAllocator

/-- A Rust type `T` as `create::<T>` sees it: `Layout::new::<T>()`'s size
and alignment, plus the byte encoding the store `*res = value` writes.
The guarantees Rust gives for every type — the alignment is a power of
two dividing `2 ^ 64`, the size is encodable — are hypotheses of the
theorems that need them. -/
structure TypeRep (τ : Type) where
  size : Nat
  align : Nat
  encode : τ → List Nat

/-- Write `data` into `buf` starting at byte `pos` (the store performed by
`*res = value` at the allocated address). -/
def writeBytes (buf : List Nat) (pos : Nat) (data : List Nat) : List Nat :=
  buf.take pos ++ data ++ buf.drop (pos + data.length)

namespace FixBufferedAllocator

/-- `FixBufferedAllocator::create::<T>(value)`: allocates with
`Layout::new::<T>()`; on failure returns `Err(value)` (the allocator is
whatever `alloc` left, i.e. unchanged); on success writes the value's
bytes at the returned address. -/
def create {τ : Type} (a : FixBufferedAllocator) (rep : TypeRep τ)
    (value : τ) : Except τ Nat × FixBufferedAllocator :=
  match alloc a ⟨rep.size, rep.align⟩ with
  | (none, a1) => (Except.error value, a1)
  | (some ptr, a1) =>
      (Except.ok ptr, { a1 with buf := writeBytes a1.buf ptr (rep.encode value) })

end FixBufferedAllocator

/-- `RestartableFBA<'buf>` from `src/lib.rs`: the allocator (field `alloc`
in the source, renamed `fba` here to leave room for the method `alloc`)
behind a `RefCell` plus the `Cell<usize>` live-handle counter. The interior
mutability disappears in the sequential embedding. -/
structure RestartableFBA where
  fba : FixBufferedAllocator
  counter : Nat
deriving Repr, DecidableEq

namespace RestartableFBA

/-- `RestartableFBA::new(buf)`. -/
def new (buf : List Nat) : RestartableFBA :=
  { fba := FixBufferedAllocator.new buf, counter := 0 }

/-- `RestartableFBA::alloc(layout)`: inner allocation; on success the
counter is incremented and the handle is returned. -/
def alloc (r : RestartableFBA) (layout : Layout) :
    Option Nat × RestartableFBA :=
  match r.fba.alloc layout with
  | (none, a1) => (none, { r with fba := a1 })
  | (some ptr, a1) => (some ptr, { fba := a1, counter := r.counter + 1 })

/-- `RestartableFBA::alloc_slice::<T>(length)`. -/
def alloc_slice (r : RestartableFBA) (sizeT alignT length : Nat) :
    Option Nat × RestartableFBA :=
  match r.fba.alloc_slice sizeT alignT length with
  | (none, a1) => (none, { r with fba := a1 })
  | (some ptr, a1) => (some ptr, { fba := a1, counter := r.counter + 1 })

/-- `RestartableFBA::create::<T>(value)`. -/
def create {τ : Type} (r : RestartableFBA) (rep : TypeRep τ) (value : τ) :
    Except τ Nat × RestartableFBA :=
  match r.fba.create rep value with
  | (Except.error v, a1) => (Except.error v, { r with fba := a1 })
  | (Except.ok ptr, a1) => (Except.ok ptr, { fba := a1, counter := r.counter + 1 })

/-- `RestartableFBA::try_restard()`: fails when the counter is nonzero,
otherwise resets the cursor to 0. -/
def try_restard (r : RestartableFBA) : Option Unit × RestartableFBA :=
  if r.counter ≠ 0 then (none, r)
  else (some (), { r with fba := { r.fba with offset := 0 } })

/-- `RestartableFBA::try_new_buffer(buf)`: fails when the counter is
nonzero, otherwise installs the new buffer and resets the cursor to 0. -/
def try_new_buffer (r : RestartableFBA) (buf : List Nat) :
    Option Unit × RestartableFBA :=
  if r.counter ≠ 0 then (none, r)
  else (some (), { r with fba := { buf := buf, offset := 0 } })

/-- `RestartableFBA::restart()`: `try_restard().expect(..)`; the panic on
a live handle is modelled as `none`. -/
def restart (r : RestartableFBA) : Option RestartableFBA :=
  match try_restard r with
  | (none, _) => none
  | (some _, r1) => some r1

/-- `RestartableFBA::new_buffer(buf)`: `try_new_buffer(buf).expect(..)`. -/
def new_buffer (r : RestartableFBA) (buf : List Nat) : Option RestartableFBA :=
  match try_new_buffer r buf with
  | (none, _) => none
  | (some _, r1) => some r1

/-- `RestartableFBA::get_buf()` from `src/lib.rs`: when the counter is
nonzero returns `None`; otherwise returns a raw mutable view of the whole
buffer. The cursor is NOT reset and the counter is NOT incremented. -/
def get_buf (r : RestartableFBA) : Option (List Nat) × RestartableFBA :=
  if r.counter ≠ 0 then (none, r)
  else (some r.fba.buf, r)

end RestartableFBA

/-- `Drop for AllocatedRef` in `src/lib.rs`: asserts the counter is at
least 1 and decrements it; `none` models the `assert!` abort. -/
def dropAllocatedRef (counter : Nat) : Option Nat :=
  if 1 ≤ counter then some (counter - 1) else none

namespace sync

/-- `sync::RestartableFBA<'buf>` from `src/sync.rs`: the allocator behind
a `Mutex` plus the `Arc<AtomicUsize>` live-handle counter. Locking
disappears in the sequential embedding; the field `alloc` is renamed
`fba` as in the single-owner variant. -/
structure RestartableFBA where
  fba : FixBufferedAllocator
  counter : Nat
deriving Repr, DecidableEq

/-- `Drop for sync::AllocatedRef`: asserts the atomic counter is at least
1 (Relaxed load) and `fetch_sub(1)`s it; `none` models the abort. -/
def dropAllocatedRef (counter : Nat) : Option Nat :=
  if 1 ≤ counter then some (counter - 1) else none

namespace RestartableFBA

/-- `sync::RestartableFBA::new(buf)`. -/
def new (buf : List Nat) : RestartableFBA :=
  { fba := FixBufferedAllocator.new buf, counter := 0 }

/-- `sync::RestartableFBA::alloc(layout)`: lock, inner allocation, then
on success `fetch_add(1)` on the counter. -/
def alloc (r : RestartableFBA) (layout : Layout) :
    Option Nat × RestartableFBA :=
  match r.fba.alloc layout with
  | (none, a1) => (none, { r with fba := a1 })
  | (some ptr, a1) => (some ptr, { fba := a1, counter := r.counter + 1 })

/-- `sync::RestartableFBA::alloc_slice::<T>(length)`. -/
def alloc_slice (r : RestartableFBA) (sizeT alignT length : Nat) :
    Option Nat × RestartableFBA :=
  match r.fba.alloc_slice sizeT alignT length with
  | (none, a1) => (none, { r with fba := a1 })
  | (some ptr, a1) => (some ptr, { fba := a1, counter := r.counter + 1 })

/-- `sync::RestartableFBA::create::<T>(value)`. -/
def create {τ : Type} (r : RestartableFBA) (rep : TypeRep τ) (value : τ) :
    Except τ Nat × RestartableFBA :=
  match r.fba.create rep value with
  | (Except.error v, a1) => (Except.error v, { r with fba := a1 })
  | (Except.ok ptr, a1) => (Except.ok ptr, { fba := a1, counter := r.counter + 1 })

/-- `sync::RestartableFBA::try_restard()`: lock first, then fail when the
counter is nonzero, otherwise reset the cursor to 0. -/
def try_restard (r : RestartableFBA) : Option Unit × RestartableFBA :=
  if r.counter ≠ 0 then (none, r)
  else (some (), { r with fba := { r.fba with offset := 0 } })

/-- `sync::RestartableFBA::try_new_buffer(buf)`. -/
def try_new_buffer (r : RestartableFBA) (buf : List Nat) :
    Option Unit × RestartableFBA :=
  if r.counter ≠ 0 then (none, r)
  else (some (), { r with fba := { buf := buf, offset := 0 } })

/-- `sync::RestartableFBA::restart()`. -/
def restart (r : RestartableFBA) : Option RestartableFBA :=
  match try_restard r with
  | (none, _) => none
  | (some _, r1) => some r1

/-- `sync::RestartableFBA::new_buffer(buf)`. -/
def new_buffer (r : RestartableFBA) (buf : List Nat) : Option RestartableFBA :=
  match try_new_buffer r buf with
  | (none, _) => none
  | (some _, r1) => some r1

/-- `sync::RestartableFBA::get_buf()` from `src/sync.rs`: under the lock,
fail when the counter is nonzero; otherwise record the buffer length,
reset the cursor to 0, drop the lock and allocate the whole buffer as a
`[u8]` slice (element size 1, alignment 1) through `alloc_slice`, which
increments the counter. -/
def get_buf (r : RestartableFBA) : Option Nat × RestartableFBA :=
  if r.counter ≠ 0 then (none, r)
  else
    let length := r.fba.buf.length
    let r1 : RestartableFBA := { r with fba := { r.fba with offset := 0 } }
    alloc_slice r1 1 1 length

end RestartableFBA

end sync

/-! ## Basic facts about the bump step -/

/-- The padding mask result is below the (power-of-two) alignment. -/
theorem padding_lt (a : FixBufferedAllocator) (k : Nat) :
    a.padding (2 ^ k) < 2 ^ k := by
  have h1 : a.padding (2 ^ k) ≤ 2 ^ k - 1 := Nat.and_le_right
  have h2 : 0 < 2 ^ k := Nat.pos_pow_of_pos k (by decide)
  omega

/-- The padding computed by the bitmask is `(USIZE - offset) % align` for a
power-of-two alignment that divides `USIZE`. -/
theorem padding_eq_mod (a : FixBufferedAllocator) (k : Nat) (hk : k ≤ 64)
    (hoff : a.offset < USIZE) :
    a.padding (2 ^ k) = (USIZE - a.offset) % 2 ^ k := by
  have hdvd : 2 ^ k ∣ USIZE := by
    unfold USIZE; exact Nat.pow_dvd_pow 2 hk
  unfold FixBufferedAllocator.padding wrapping_neg
  rw [Nat.mod_eq_of_lt hoff, Nat.and_pow_two_sub_one_eq_mod,
    Nat.mod_mod_of_dvd _ hdvd]

/-- Adding the padding aligns the cursor: `(offset + padding) % align = 0`. -/
theorem offset_add_padding (a : FixBufferedAllocator) (k : Nat) (hk : k ≤ 64)
    (hoff : a.offset < USIZE) :
    (a.offset + a.padding (2 ^ k)) % 2 ^ k = 0 := by
  have hdvd : 2 ^ k ∣ USIZE := by
    unfold USIZE; exact Nat.pow_dvd_pow 2 hk
  rw [padding_eq_mod a k hk hoff]
  have h1 : (a.offset + (USIZE - a.offset) % 2 ^ k) % 2 ^ k
      = (a.offset + (USIZE - a.offset)) % 2 ^ k :=
    Nat.ModEq.add_left _ (Nat.mod_modEq _ _)
  rw [h1, Nat.add_sub_cancel' (Nat.le_of_lt hoff)]
  exact Nat.mod_eq_zero_of_dvd hdvd

/-- `alloc_raw` in one equation: the two checked additions collapse into a
single no-overflow condition on `offset + padding + size`. -/
theorem alloc_raw_char (a : FixBufferedAllocator) (l : Layout) :
    a.alloc_raw l =
      if a.offset + a.padding l.align + l.size < USIZE ∧
          a.offset + a.padding l.align + l.size ≤ a.buf.length then
        (some (a.offset + a.padding l.align),
          { a with offset := a.offset + a.padding l.align + l.size })
      else (none, a) := by
  unfold FixBufferedAllocator.alloc_raw checked_add
  by_cases h1 : a.offset + a.padding l.align < USIZE
  · by_cases h2 : a.offset + a.padding l.align + l.size < USIZE
    · simp only [if_pos h1, if_pos h2]
      by_cases h3 : a.offset + a.padding l.align + l.size ≤ a.buf.length
      · rw [if_neg (by omega), if_pos ⟨h2, h3⟩]
      · rw [if_pos (by omega), if_neg (by omega)]
    · simp only [if_pos h1, if_neg h2]
      rw [if_neg (by omega)]
  · have h2 : ¬ (a.offset + a.padding l.align + l.size < USIZE) := by omega
    simp only [if_neg h1]
    rw [if_neg (by omega)]

/-- Two paddings below `m` that both complete `x` to a multiple of `m`
are equal. -/
theorem pad_unique {m x p q : Nat} (hp : p < m) (hq : q < m)
    (hxp : (x + p) % m = 0) (hxq : (x + q) % m = 0) : p = q := by
  have h1 : m ∣ x + p := Nat.dvd_of_mod_eq_zero hxp
  have h2 : m ∣ x + q := Nat.dvd_of_mod_eq_zero hxq
  rcases Nat.le_total p q with h | h
  · have h3 : m ∣ q - p := by
      have h4 := Nat.dvd_sub' h2 h1
      rwa [Nat.add_sub_add_left] at h4
    have h5 : q - p = 0 := Nat.eq_zero_of_dvd_of_lt h3 (by omega)
    omega
  · have h3 : m ∣ p - q := by
      have h4 := Nat.dvd_sub' h1 h2
      rwa [Nat.add_sub_add_left] at h4
    have h5 : p - q = 0 := Nat.eq_zero_of_dvd_of_lt h3 (by omega)
    omega

/-- `(-offset) mod align` over the integers, exactly as §4.1 of the spec
words the padding computation. -/
def spec_neg_mod (offset align : Nat) : Nat :=
  ((-(offset : Int)) % (align : Int)).toNat

/-- §4.1 `alloc_raw` as the spec words it: `padding = (-offset) mod align`,
`aligned_offset = offset + padding` and `end = aligned_offset + size` with
overflow checks, failure when `end > capacity`, otherwise the address at
`aligned_offset` with `offset = end`. Refinement target for C2; this
definition follows the spec's words, not the code. -/
def alloc_raw_spec (a : FixBufferedAllocator) (l : Layout) :
    Option Nat × FixBufferedAllocator :=
  if a.offset + spec_neg_mod a.offset l.align < USIZE ∧
      a.offset + spec_neg_mod a.offset l.align + l.size < USIZE ∧
      a.offset + spec_neg_mod a.offset l.align + l.size ≤ a.buf.length then
    (some (a.offset + spec_neg_mod a.offset l.align),
      { a with offset := a.offset + spec_neg_mod a.offset l.align + l.size })
  else (none, a)

/-- The spec's integer `(-offset) mod align` equals the code's bitmask
padding for a power-of-two alignment dividing `2 ^ 64`. -/
theorem spec_neg_mod_eq_padding (a : FixBufferedAllocator) (k : Nat)
    (hk : k ≤ 64) (hoff : a.offset < USIZE) :
    spec_neg_mod a.offset (2 ^ k) = a.padding (2 ^ k) := by
  have hm : (0 : Int) < ((2 ^ k : Nat) : Int) := by
    exact_mod_cast Nat.pos_pow_of_pos k (by decide)
  set i : Int := (-(a.offset : Int)) % ((2 ^ k : Nat) : Int) with hi
  have hnn : 0 ≤ i := Int.emod_nonneg _ (ne_of_gt hm)
  have hlt : i < ((2 ^ k : Nat) : Int) := Int.emod_lt_of_pos _ hm
  have hkey : ((a.offset : Int) + i) % ((2 ^ k : Nat) : Int) = 0 := by
    have h1 : ((a.offset : Int) + i) % ((2 ^ k : Nat) : Int)
        = ((a.offset : Int) + -(a.offset : Int)) % ((2 ^ k : Nat) : Int) :=
      Int.ModEq.add_left _ (Int.emod_emod_of_dvd _ dvd_rfl)
    rw [h1]
    simp
  have hcast : ((a.offset + i.toNat) % 2 ^ k : Nat) = 0 := by
    have h2 : (((a.offset + i.toNat) % 2 ^ k : Nat) : Int) = 0 := by
      push_cast [Int.toNat_of_nonneg hnn]
      push_cast at hkey
      exact hkey
    exact_mod_cast h2
  have hplt : i.toNat < 2 ^ k := by omega
  exact pad_unique hplt (padding_lt a k) hcast (offset_add_padding a k hk hoff)

/-- C2: for every arena state and request with power-of-two alignment,
`alloc_raw` computes `padding = (-offset) mod align`,
`aligned_offset = offset + padding`, `end = aligned_offset + size` with
overflow checking; overflow or `end > capacity` fails with the state
unchanged, and otherwise the address at `aligned_offset` is returned and
`offset` becomes `end`. -/
theorem C2_alloc_raw_refines_spec (a : FixBufferedAllocator) (l : Layout)
    (k : Nat) (halign : l.align = 2 ^ k) (hk : k ≤ 64)
    (hoff : a.offset < USIZE) :
    a.alloc_raw l = alloc_raw_spec a l := by
  have hpad : spec_neg_mod a.offset l.align = a.padding l.align := by
    rw [halign]; exact spec_neg_mod_eq_padding a k hk hoff
  rw [alloc_raw_char]
  unfold alloc_raw_spec
  rw [hpad]
  by_cases h : a.offset + a.padding l.align + l.size < USIZE ∧
      a.offset + a.padding l.align + l.size ≤ a.buf.length
  · rw [if_pos h, if_pos ⟨by omega, h.1, h.2⟩]
  · rw [if_neg h, if_neg (by omega)]

/-- C2 witness: the refinement instantiated at a concrete state and
request. -/
theorem C2_witness :
    (FixBufferedAllocator.mk [0, 0, 0, 0, 0, 0, 0, 0] 1).alloc_raw ⟨4, 4⟩
      = alloc_raw_spec (FixBufferedAllocator.mk [0, 0, 0, 0, 0, 0, 0, 0] 1) ⟨4, 4⟩ :=
  C2_alloc_raw_refines_spec _ _ 2 (by decide) (by decide) (by decide)

/-- C5: for every arena state and power-of-two alignment, a successful
`alloc(size, align)` returns an address whose offset from the buffer base
is a multiple of `align`. -/
theorem C5_alloc_address_aligned (a : FixBufferedAllocator) (l : Layout)
    (k : Nat) (halign : l.align = 2 ^ k) (hk : k ≤ 64)
    (hoff : a.offset < USIZE) (addr : Nat) (a1 : FixBufferedAllocator)
    (hsucc : a.alloc l = (some addr, a1)) :
    addr % l.align = 0 := by
  rw [FixBufferedAllocator.alloc, alloc_raw_char] at hsucc
  split at hsucc
  · have haddr : addr = a.offset + a.padding l.align := by
      have := congrArg Prod.fst hsucc
      simpa using this.symm
    rw [haddr, halign]
    exact offset_add_padding a k hk hoff
  · simp at hsucc

/-- C5 witness: an aligned address at a concrete state and request. -/
theorem C5_witness :
    (FixBufferedAllocator.mk [0, 0, 0, 0, 0, 0, 0, 0, 0, 0, 0, 0] 5).alloc ⟨4, 4⟩
        = (some 8, ⟨[0, 0, 0, 0, 0, 0, 0, 0, 0, 0, 0, 0], 12⟩) ∧ 8 % 4 = 0 :=
  ⟨by decide, C5_alloc_address_aligned ⟨[0, 0, 0, 0, 0, 0, 0, 0, 0, 0, 0, 0], 5⟩
    ⟨4, 4⟩ 2 (by decide) (by decide) (by decide) 8 ⟨[0, 0, 0, 0, 0, 0, 0, 0, 0, 0, 0, 0], 12⟩ (by decide)⟩

/-- C10: on every arena state satisfying the data-model invariant —
including a full one, `offset = capacity` — `alloc_raw` with size 0 and
alignment 1 succeeds, returning the address at the current offset and
leaving the state unchanged; a zero-size request never reports
out-of-space when no padding is needed. -/
theorem C10_zero_size_alloc_succeeds (a : FixBufferedAllocator)
    (hinv : a.offset ≤ a.buf.length) (hcap : a.buf.length < USIZE) :
    a.alloc_raw ⟨0, 1⟩ = (some a.offset, a) := by
  rw [alloc_raw_char]
  have hpad : a.padding 1 = 0 := by
    unfold FixBufferedAllocator.padding
    simp
  simp only [hpad]
  rw [if_pos ⟨by omega, by omega⟩]
  simp

/-- C10 witness: zero-size allocation on a completely full 2-byte arena. -/
theorem C10_witness :
    (FixBufferedAllocator.mk [5, 6] 2).alloc_raw ⟨0, 1⟩
      = (some 2, FixBufferedAllocator.mk [5, 6] 2) :=
  C10_zero_size_alloc_succeeds ⟨[5, 6], 2⟩ (by decide) (by decide)

/-- C6: all offset/size arithmetic is overflow-checked and overflow is
reported as allocation failure with the state unchanged, never silent
wraparound: `alloc_slice` fails when `sizeof(T) * count` overflows and
otherwise delegates the checked layout to `alloc_raw`; `alloc_raw` fails
when the padding addition or the size addition overflows. -/
theorem C6_overflow_is_failure (a : FixBufferedAllocator)
    (sizeT alignT len : Nat) (l : Layout) :
    (USIZE ≤ sizeT * len → a.alloc_slice sizeT alignT len = (none, a)) ∧
    (USIZE ≤ a.offset + a.padding l.align → a.alloc_raw l = (none, a)) ∧
    (USIZE ≤ a.offset + a.padding l.align + l.size →
      a.alloc_raw l = (none, a)) ∧
    (∀ layout : Layout, sizeT * len < USIZE →
      Layout.from_size_align (sizeT * len) alignT = some layout →
      a.alloc_slice sizeT alignT len = a.alloc_raw layout) := by
  refine ⟨?_, ?_, ?_, ?_⟩
  · intro h
    unfold FixBufferedAllocator.alloc_slice checked_mul
    rw [if_neg (by omega)]
  · intro h
    rw [alloc_raw_char, if_neg (by omega)]
  · intro h
    rw [alloc_raw_char, if_neg (by omega)]
  · intro layout hmul hlay
    unfold FixBufferedAllocator.alloc_slice checked_mul
    rw [if_pos hmul]
    simp only [hlay]

/-- C6 witness: a multiplication overflow in `alloc_slice`, an addition
overflow in `alloc_raw`, and a successful delegation, all at concrete
inputs. -/
theorem C6_witness :
    (FixBufferedAllocator.mk [0, 0] 0).alloc_slice 2 1 (2 ^ 63) = (none, ⟨[0, 0], 0⟩) ∧
    (FixBufferedAllocator.mk [0, 0] 0).alloc_raw ⟨USIZE, 1⟩ = (none, ⟨[0, 0], 0⟩) ∧
    (FixBufferedAllocator.mk [0, 0] 0).alloc_slice 1 1 2
      = (FixBufferedAllocator.mk [0, 0] 0).alloc_raw ⟨2, 1⟩ := by
  refine ⟨?_, ?_, ?_⟩
  · exact (C6_overflow_is_failure ⟨[0, 0], 0⟩ 2 1 (2 ^ 63) ⟨0, 1⟩).1 (by decide)
  · exact (C6_overflow_is_failure ⟨[0, 0], 0⟩ 0 0 0 ⟨USIZE, 1⟩).2.2.1 (by decide)
  · exact (C6_overflow_is_failure ⟨[0, 0], 0⟩ 1 1 2 ⟨0, 1⟩).2.2.2 ⟨2, 1⟩
      (by decide) (by decide)

/-- Read `len` bytes of `buf` starting at `pos`. -/
def readBytes (buf : List Nat) (pos len : Nat) : List Nat :=
  (buf.drop pos).take len

/-- An in-bounds write preserves the buffer length. -/
theorem writeBytes_length (buf : List Nat) (pos : Nat) (data : List Nat)
    (h : pos + data.length ≤ buf.length) :
    (writeBytes buf pos data).length = buf.length := by
  unfold writeBytes
  simp only [List.length_append, List.length_take, List.length_drop]
  omega

/-- Reading back an in-bounds write returns the written bytes. -/
theorem readBytes_writeBytes (buf : List Nat) (pos : Nat) (data : List Nat)
    (h : pos + data.length ≤ buf.length) :
    readBytes (writeBytes buf pos data) pos data.length = data := by
  unfold writeBytes readBytes
  rw [List.append_assoc,
    List.drop_left' (by simp only [List.length_take]; omega),
    List.take_left' rfl]

/-- A failed `alloc` leaves the allocator unchanged. -/
theorem alloc_failure (a : FixBufferedAllocator) (l : Layout)
    (a1 : FixBufferedAllocator) (h : a.alloc l = (none, a1)) : a1 = a := by
  rw [FixBufferedAllocator.alloc, alloc_raw_char] at h
  split at h
  · simp at h
  · exact (Prod.mk.injEq _ _ _ _ ▸ h).2.symm

/-- A successful `alloc` returns the padded cursor and bumps it past the
request, staying within the unchanged buffer. -/
theorem alloc_success (a : FixBufferedAllocator) (l : Layout) (addr : Nat)
    (a1 : FixBufferedAllocator) (h : a.alloc l = (some addr, a1)) :
    addr = a.offset + a.padding l.align ∧
    a1 = { a with offset := addr + l.size } ∧
    a.offset ≤ addr ∧ addr + l.size ≤ a.buf.length ∧ a1.buf = a.buf := by
  rw [FixBufferedAllocator.alloc, alloc_raw_char] at h
  split at h
  · rename_i hcond
    have h1 := (Prod.mk.injEq _ _ _ _ ▸ h).1
    have h2 := (Prod.mk.injEq _ _ _ _ ▸ h).2
    have haddr : addr = a.offset + a.padding l.align := by
      simpa using h1.symm
    refine ⟨haddr, ?_, by omega, by omega, by rw [← h2]⟩
    rw [← h2, haddr]
  · simp at h

/-- C7: when `create(value)` fails it hands the exact value back and
leaves the arena unchanged; when it succeeds it writes the value's bytes
into a slot sized and aligned for the type. -/
theorem C7_create_value_roundtrip {τ : Type}
    (a : FixBufferedAllocator) (rep : TypeRep τ) (value : τ)
    (k : Nat) (halign : rep.align = 2 ^ k) (hk : k ≤ 64)
    (hoff : a.offset < USIZE)
    (henc : (rep.encode value).length = rep.size) :
    (∀ (v : τ) (a1 : FixBufferedAllocator),
      a.create rep value = (Except.error v, a1) → v = value ∧ a1 = a) ∧
    (∀ (ptr : Nat) (a1 : FixBufferedAllocator),
      a.create rep value = (Except.ok ptr, a1) →
        ptr % rep.align = 0 ∧ ptr + rep.size ≤ a.buf.length ∧
        a1.buf.length = a.buf.length ∧
        readBytes a1.buf ptr rep.size = rep.encode value) := by
  constructor
  · intro v a1 h
    unfold FixBufferedAllocator.create at h
    rcases halloc : a.alloc ⟨rep.size, rep.align⟩ with ⟨o, a2⟩
    rw [halloc] at h
    cases o with
    | none =>
      simp only [Prod.mk.injEq, Except.error.injEq] at h
      exact ⟨h.1.symm, h.2.symm ▸ alloc_failure a _ a2 halloc⟩
    | some p => simp at h
  · intro ptr a1 h
    unfold FixBufferedAllocator.create at h
    rcases halloc : a.alloc ⟨rep.size, rep.align⟩ with ⟨o, a2⟩
    rw [halloc] at h
    cases o with
    | none => simp at h
    | some p =>
      simp only [Prod.mk.injEq, Except.ok.injEq] at h
      obtain ⟨hp, ha1⟩ := h
      subst hp
      obtain ⟨haddr, ha2, hle, hfit, hbuf⟩ := alloc_success a _ p a2 halloc
      have hfit' : p + (rep.encode value).length ≤ a2.buf.length := by
        rw [hbuf, henc]; exact hfit
      refine ⟨?_, hfit, ?_, ?_⟩
      · rw [haddr, halign]
        exact offset_add_padding a k hk hoff
      · rw [← ha1]
        simp only
        rw [writeBytes_length _ _ _ hfit', hbuf]
      · rw [← ha1]
        simp only
        rw [← henc, readBytes_writeBytes _ _ _ hfit']

/-- An unsigned byte as `create::<u8>` sees it: size 1, alignment 1, the
value taken modulo 256. -/
def u8Rep : TypeRep Nat := ⟨1, 1, fun v => [v % 256]⟩

/-- C7 witness: a failing `create` on a full 1-byte arena returns the
value 7, and a succeeding one writes 255 at an aligned in-bounds slot. -/
theorem C7_witness :
    (7 = 7 ∧ FixBufferedAllocator.mk [9] 1 = ⟨[9], 1⟩) ∧
    (0 % u8Rep.align = 0 ∧ 0 + u8Rep.size ≤ 1 ∧
      ((FixBufferedAllocator.mk [9] 0).create u8Rep 255).2.buf.length = 1 ∧
      readBytes ((FixBufferedAllocator.mk [9] 0).create u8Rep 255).2.buf 0 u8Rep.size
        = u8Rep.encode 255) := by
  constructor
  · exact (C7_create_value_roundtrip ⟨[9], 1⟩ u8Rep 7 0 (by decide) (by decide)
      (by decide) (by decide)).1 7 ⟨[9], 1⟩ rfl
  · exact (C7_create_value_roundtrip ⟨[9], 0⟩ u8Rep 255 0 (by decide) (by decide)
      (by decide) (by decide)).2 0 ((FixBufferedAllocator.mk [9] 0).create u8Rep 255).2
      rfl

/-- Run a sequence of allocation requests through `alloc_raw`, collecting
the byte range `[start, stop)` of every successful one (failures leave
the allocator unchanged and produce no range). -/
def runAllocs (a : FixBufferedAllocator) :
    List Layout → FixBufferedAllocator × List (Nat × Nat)
  | [] => (a, [])
  | l :: ls =>
    match a.alloc_raw l with
    | (none, a1) => runAllocs a1 ls
    | (some s, a1) =>
      ((runAllocs a1 ls).1, (s, a1.offset) :: (runAllocs a1 ls).2)

/-- `Chained o rs o'`: the ranges `rs` sit in order between the cursor
positions `o` and `o'`. -/
def Chained : Nat → List (Nat × Nat) → Nat → Prop
  | o, [], o' => o ≤ o'
  | o, r :: rs, o' => o ≤ r.1 ∧ r.1 ≤ r.2 ∧ Chained r.2 rs o'

/-- A chain's endpoints are ordered. -/
theorem chained_le {rs : List (Nat × Nat)} {o o' : Nat}
    (h : Chained o rs o') : o ≤ o' := by
  induction rs generalizing o with
  | nil => exact h
  | cons x rs ih => exact le_trans (le_trans h.1 h.2.1) (ih h.2.2)

/-- Every range of a chain lies between its endpoints. -/
theorem chained_mem {rs : List (Nat × Nat)} {o o' : Nat}
    (h : Chained o rs o') : ∀ r ∈ rs, o ≤ r.1 ∧ r.1 ≤ r.2 ∧ r.2 ≤ o' := by
  induction rs generalizing o with
  | nil => intro r hr; cases hr
  | cons x rs ih =>
    intro r hr
    obtain ⟨h1, h2, h3⟩ := h
    cases hr with
    | head => exact ⟨h1, h2, chained_le h3⟩
    | tail _ hr =>
      have := ih h3 r hr
      exact ⟨le_trans (le_trans h1 h2) this.1, this.2⟩

/-- Chained ranges are pairwise ordered, hence disjoint. -/
theorem chained_pairwise {rs : List (Nat × Nat)} {o o' : Nat}
    (h : Chained o rs o') :
    rs.Pairwise (fun r1 r2 => r1.2 ≤ r2.1) := by
  induction rs generalizing o with
  | nil => exact List.Pairwise.nil
  | cons x rs ih =>
    obtain ⟨h1, h2, h3⟩ := h
    exact List.Pairwise.cons (fun r hr => (chained_mem h3 r hr).1) (ih h3)

/-- `runAllocs` leaves the buffer alone and produces a chain of ranges
from the initial to the final cursor. -/
theorem runAllocs_chained (ls : List Layout) (a : FixBufferedAllocator) :
    (runAllocs a ls).1.buf = a.buf ∧
    Chained a.offset (runAllocs a ls).2 (runAllocs a ls).1.offset := by
  induction ls generalizing a with
  | nil => exact ⟨rfl, le_refl _⟩
  | cons l ls ih =>
    rw [runAllocs]
    rcases h : a.alloc_raw l with ⟨o, a1⟩
    cases o with
    | none =>
      have ha1 : a1 = a := alloc_failure a l a1 h
      simp only [h]
      rw [ha1]
      exact ih a
    | some s =>
      simp only [h]
      obtain ⟨haddr, ha1, hle, hfit, hbuf⟩ := alloc_success a l s a1 h
      have hih := ih a1
      have hoff1 : a1.offset = s + l.size := by rw [ha1]
      exact ⟨by rw [hih.1, hbuf], by omega, by omega, hih.2⟩

/-! ## Counter effects of the coordinator operations -/

/-- `RestartableFBA::alloc` bumps the counter exactly on success. -/
theorem counter_alloc (r : RestartableFBA) (l : Layout) :
    (r.alloc l).2.counter
      = (if (r.alloc l).1.isSome then r.counter + 1 else r.counter) := by
  unfold RestartableFBA.alloc
  rcases h : r.fba.alloc l with ⟨o, a1⟩
  cases o with
  | none => simp [h]
  | some p => simp [h]

/-- `RestartableFBA::alloc_slice` bumps the counter exactly on success. -/
theorem counter_alloc_slice (r : RestartableFBA) (sizeT alignT len : Nat) :
    (r.alloc_slice sizeT alignT len).2.counter
      = (if (r.alloc_slice sizeT alignT len).1.isSome then r.counter + 1
         else r.counter) := by
  unfold RestartableFBA.alloc_slice
  rcases h : r.fba.alloc_slice sizeT alignT len with ⟨o, a1⟩
  cases o with
  | none => simp [h]
  | some p => simp [h]

/-- `RestartableFBA::create` bumps the counter exactly on success. -/
theorem counter_create {τ : Type} (r : RestartableFBA) (rep : TypeRep τ)
    (v : τ) :
    (r.create rep v).2.counter
      = (if (r.create rep v).1.isOk then r.counter + 1 else r.counter) := by
  unfold RestartableFBA.create
  rcases h : r.fba.create rep v with ⟨o, a1⟩
  cases o with
  | error e => simp [h, Except.isOk, Except.toBool]
  | ok p => simp [h, Except.isOk, Except.toBool]

/-- `try_restard` never changes the counter. -/
theorem counter_try_restard (r : RestartableFBA) :
    (r.try_restard).2.counter = r.counter := by
  unfold RestartableFBA.try_restard
  split <;> rfl

/-- `try_new_buffer` never changes the counter. -/
theorem counter_try_new_buffer (r : RestartableFBA) (b : List Nat) :
    (r.try_new_buffer b).2.counter = r.counter := by
  unfold RestartableFBA.try_new_buffer
  split <;> rfl

/-- The single-owner `get_buf` leaves the whole coordinator state
untouched. -/
theorem get_buf_state (r : RestartableFBA) : (r.get_buf).2 = r := by
  unfold RestartableFBA.get_buf
  split <;> rfl

/-- `sync::RestartableFBA::alloc` bumps the counter exactly on success. -/
theorem sync_counter_alloc (r : sync.RestartableFBA) (l : Layout) :
    (r.alloc l).2.counter
      = (if (r.alloc l).1.isSome then r.counter + 1 else r.counter) := by
  unfold sync.RestartableFBA.alloc
  rcases h : r.fba.alloc l with ⟨o, a1⟩
  cases o with
  | none => simp [h]
  | some p => simp [h]

/-- `sync::RestartableFBA::alloc_slice` bumps the counter exactly on
success. -/
theorem sync_counter_alloc_slice (r : sync.RestartableFBA)
    (sizeT alignT len : Nat) :
    (r.alloc_slice sizeT alignT len).2.counter
      = (if (r.alloc_slice sizeT alignT len).1.isSome then r.counter + 1
         else r.counter) := by
  unfold sync.RestartableFBA.alloc_slice
  rcases h : r.fba.alloc_slice sizeT alignT len with ⟨o, a1⟩
  cases o with
  | none => simp [h]
  | some p => simp [h]

/-- `sync::RestartableFBA::create` bumps the counter exactly on success. -/
theorem sync_counter_create {τ : Type} (r : sync.RestartableFBA)
    (rep : TypeRep τ) (v : τ) :
    (r.create rep v).2.counter
      = (if (r.create rep v).1.isOk then r.counter + 1 else r.counter) := by
  unfold sync.RestartableFBA.create
  rcases h : r.fba.create rep v with ⟨o, a1⟩
  cases o with
  | error e => simp [h, Except.isOk, Except.toBool]
  | ok p => simp [h, Except.isOk, Except.toBool]

/-- The thread-safe `try_restard` never changes the counter. -/
theorem sync_counter_try_restard (r : sync.RestartableFBA) :
    (r.try_restard).2.counter = r.counter := by
  unfold sync.RestartableFBA.try_restard
  split <;> rfl

/-- The thread-safe `try_new_buffer` never changes the counter. -/
theorem sync_counter_try_new_buffer (r : sync.RestartableFBA) (b : List Nat) :
    (r.try_new_buffer b).2.counter = r.counter := by
  unfold sync.RestartableFBA.try_new_buffer
  split <;> rfl

/-- The thread-safe `get_buf` bumps the counter exactly when it hands out
the whole-buffer handle. -/
theorem sync_counter_get_buf (r : sync.RestartableFBA) :
    (r.get_buf).2.counter
      = (if (r.get_buf).1.isSome then r.counter + 1 else r.counter) := by
  unfold sync.RestartableFBA.get_buf
  by_cases h : r.counter ≠ 0
  · simp [h]
  · rw [if_neg h]
    simp only at h
    rcases hs : sync.RestartableFBA.alloc_slice
        { r with fba := { r.fba with offset := 0 } } 1 1 r.fba.buf.length
      with ⟨o, r1⟩
    have := sync_counter_alloc_slice
        { r with fba := { r.fba with offset := 0 } } 1 1 r.fba.buf.length
    rw [hs] at this
    cases o with
    | none => simpa using this
    | some p => simpa using this

/-- C9: for both coordinator variants, each allocation operation
(`alloc`, `alloc_slice`, `create`) increments the live count by exactly
one iff the underlying allocation succeeds, and leaves it unchanged on
failure. -/
theorem C9_allocation_counter {τ : Type} (r : RestartableFBA)
    (rs : sync.RestartableFBA) (l : Layout) (sizeT alignT len : Nat)
    (rep : TypeRep τ) (v : τ) :
    ((r.alloc l).2.counter
      = (if (r.alloc l).1.isSome then r.counter + 1 else r.counter)) ∧
    ((r.alloc_slice sizeT alignT len).2.counter
      = (if (r.alloc_slice sizeT alignT len).1.isSome then r.counter + 1
         else r.counter)) ∧
    ((r.create rep v).2.counter
      = (if (r.create rep v).1.isOk then r.counter + 1 else r.counter)) ∧
    ((rs.alloc l).2.counter
      = (if (rs.alloc l).1.isSome then rs.counter + 1 else rs.counter)) ∧
    ((rs.alloc_slice sizeT alignT len).2.counter
      = (if (rs.alloc_slice sizeT alignT len).1.isSome then rs.counter + 1
         else rs.counter)) ∧
    ((rs.create rep v).2.counter
      = (if (rs.create rep v).1.isOk then rs.counter + 1 else rs.counter)) :=
  ⟨counter_alloc r l, counter_alloc_slice r sizeT alignT len,
    counter_create r rep v, sync_counter_alloc rs l,
    sync_counter_alloc_slice rs sizeT alignT len, sync_counter_create rs rep v⟩

/-- C9 witness: on a fresh 2-byte arena a 1-byte `alloc` raises the count
to 1 and an oversized `alloc` leaves it at 0, in both variants. -/
theorem C9_witness :
    ((RestartableFBA.new [0, 0]).alloc ⟨1, 1⟩).2.counter = 1 ∧
    ((RestartableFBA.new [0, 0]).alloc ⟨3, 1⟩).2.counter = 0 ∧
    ((sync.RestartableFBA.new [0, 0]).alloc ⟨1, 1⟩).2.counter = 1 ∧
    ((sync.RestartableFBA.new [0, 0]).alloc ⟨3, 1⟩).2.counter = 0 := by
  have h1 := (C9_allocation_counter (RestartableFBA.new [0, 0])
    (sync.RestartableFBA.new [0, 0]) ⟨1, 1⟩ 1 1 1 u8Rep 0).1
  have h2 := (C9_allocation_counter (RestartableFBA.new [0, 0])
    (sync.RestartableFBA.new [0, 0]) ⟨3, 1⟩ 1 1 1 u8Rep 0).1
  have h3 := (C9_allocation_counter (RestartableFBA.new [0, 0])
    (sync.RestartableFBA.new [0, 0]) ⟨1, 1⟩ 1 1 1 u8Rep 0).2.2.2.1
  have h4 := (C9_allocation_counter (RestartableFBA.new [0, 0])
    (sync.RestartableFBA.new [0, 0]) ⟨3, 1⟩ 1 1 1 u8Rep 0).2.2.2.1
  refine ⟨?_, ?_, ?_, ?_⟩
  · rw [h1]; decide
  · rw [h2]; decide
  · rw [h3]; decide
  · rw [h4]; decide

/-- C3: in both variants `try_restard` succeeds iff the live count is 0,
resetting the cursor to 0 and leaving the buffer bytes and counter
untouched; `try_new_buffer` has the same gating and additionally installs
the new buffer with cursor 0; on failure the state is returned unchanged
and the convenience forms `restart` / `new_buffer` abort. -/
theorem C3_restart_rebind_gating (r : RestartableFBA)
    (rs : sync.RestartableFBA) (b : List Nat) :
    (((r.try_restard).1.isSome ↔ r.counter = 0) ∧
     (r.counter = 0 →
        (r.try_restard).2.fba.offset = 0 ∧
        (r.try_restard).2.fba.buf = r.fba.buf ∧
        (r.try_restard).2.counter = r.counter ∧
        r.restart = some (r.try_restard).2) ∧
     (r.counter ≠ 0 → r.try_restard = (none, r) ∧ r.restart = none) ∧
     ((r.try_new_buffer b).1.isSome ↔ r.counter = 0) ∧
     (r.counter = 0 →
        (r.try_new_buffer b).2.fba.buf = b ∧
        (r.try_new_buffer b).2.fba.offset = 0 ∧
        (r.try_new_buffer b).2.counter = r.counter ∧
        r.new_buffer b = some (r.try_new_buffer b).2) ∧
     (r.counter ≠ 0 →
        r.try_new_buffer b = (none, r) ∧ r.new_buffer b = none)) ∧
    (((rs.try_restard).1.isSome ↔ rs.counter = 0) ∧
     (rs.counter = 0 →
        (rs.try_restard).2.fba.offset = 0 ∧
        (rs.try_restard).2.fba.buf = rs.fba.buf ∧
        (rs.try_restard).2.counter = rs.counter ∧
        rs.restart = some (rs.try_restard).2) ∧
     (rs.counter ≠ 0 → rs.try_restard = (none, rs) ∧ rs.restart = none) ∧
     ((rs.try_new_buffer b).1.isSome ↔ rs.counter = 0) ∧
     (rs.counter = 0 →
        (rs.try_new_buffer b).2.fba.buf = b ∧
        (rs.try_new_buffer b).2.fba.offset = 0 ∧
        (rs.try_new_buffer b).2.counter = rs.counter ∧
        rs.new_buffer b = some (rs.try_new_buffer b).2) ∧
     (rs.counter ≠ 0 →
        rs.try_new_buffer b = (none, rs) ∧ rs.new_buffer b = none)) := by
  constructor
  · by_cases h : r.counter = 0 <;>
      simp [RestartableFBA.restart, RestartableFBA.new_buffer,
        RestartableFBA.try_restard, RestartableFBA.try_new_buffer, h]
  · by_cases h : rs.counter = 0 <;>
      simp [sync.RestartableFBA.restart, sync.RestartableFBA.new_buffer,
        sync.RestartableFBA.try_restard, sync.RestartableFBA.try_new_buffer, h]

/-- C3 witness: with one live handle both variants refuse to restart and
keep their state; with none they reset the cursor. -/
theorem C3_witness :
    ((RestartableFBA.mk ⟨[7, 7], 2⟩ 1).try_restard
        = (none, RestartableFBA.mk ⟨[7, 7], 2⟩ 1) ∧
      (RestartableFBA.mk ⟨[7, 7], 2⟩ 1).restart = none) ∧
    ((RestartableFBA.mk ⟨[7, 7], 2⟩ 0).try_restard).2.fba.offset = 0 ∧
    ((sync.RestartableFBA.mk ⟨[7, 7], 2⟩ 1).try_restard
        = (none, sync.RestartableFBA.mk ⟨[7, 7], 2⟩ 1) ∧
      (sync.RestartableFBA.mk ⟨[7, 7], 2⟩ 1).restart = none) ∧
    ((sync.RestartableFBA.mk ⟨[7, 7], 2⟩ 0).try_restard).2.fba.offset = 0 :=
  ⟨(C3_restart_rebind_gating ⟨⟨[7, 7], 2⟩, 1⟩ ⟨⟨[7, 7], 2⟩, 1⟩ []).1.2.2.1
      (by decide),
    ((C3_restart_rebind_gating ⟨⟨[7, 7], 2⟩, 0⟩ ⟨⟨[7, 7], 2⟩, 0⟩ []).1.2.1
      (by decide)).1,
    (C3_restart_rebind_gating ⟨⟨[7, 7], 2⟩, 1⟩ ⟨⟨[7, 7], 2⟩, 1⟩ []).2.2.2.1
      (by decide),
    ((C3_restart_rebind_gating ⟨⟨[7, 7], 2⟩, 0⟩ ⟨⟨[7, 7], 2⟩, 0⟩ []).2.2.1
      (by decide)).1⟩

/-- Caller-visible events against a coordinator: allocations (each success
hands out exactly one guarded handle), the cursor-cycling calls, `get_buf`
and the release of one held handle. -/
inductive Op where
  | opAlloc (l : Layout)
  | opSlice (sizeT alignT len : Nat)
  | opCreate (size align val : Nat)
  | opRestart
  | opNewBuffer (b : List Nat)
  | opGetBuf
  | opDrop

/-- Abort causes of a ghost run. -/
inductive RunErr where
  | underflowAbort
  | noHandle
deriving DecidableEq

/-- A concrete `size`/`align` type whose values are bytes repeated, used
to instantiate `create` inside ghost runs. -/
def natRep (size align : Nat) : TypeRep Nat :=
  ⟨size, align, fun v => List.replicate size (v % 256)⟩

/-- Ghost run of the single-owner coordinator: the coordinator state plus
the number of handles the caller still holds. Handle release (`opDrop`)
is the only event that runs `dropAllocatedRef`; it requires an existing
handle (`noHandle` otherwise) and hits the `assert!` (`underflowAbort`)
when the coordinator counter is already 0. -/
def runG : RestartableFBA → Nat → List Op → Except RunErr (RestartableFBA × Nat)
  | r, h, [] => Except.ok (r, h)
  | r, h, op :: ops =>
    match op with
    | Op.opAlloc l =>
      match r.alloc l with
      | (none, r1) => runG r1 h ops
      | (some _, r1) => runG r1 (h + 1) ops
    | Op.opSlice sizeT alignT len =>
      match r.alloc_slice sizeT alignT len with
      | (none, r1) => runG r1 h ops
      | (some _, r1) => runG r1 (h + 1) ops
    | Op.opCreate size align val =>
      match r.create (natRep size align) val with
      | (Except.error _, r1) => runG r1 h ops
      | (Except.ok _, r1) => runG r1 (h + 1) ops
    | Op.opRestart => runG (r.try_restard).2 h ops
    | Op.opNewBuffer b => runG (r.try_new_buffer b).2 h ops
    | Op.opGetBuf => runG (r.get_buf).2 h ops
    | Op.opDrop =>
      if h = 0 then Except.error RunErr.noHandle
      else
        match dropAllocatedRef r.counter with
        | none => Except.error RunErr.underflowAbort
        | some c => runG { r with counter := c } (h - 1) ops

/-- Ghost run of the thread-safe coordinator; `get_buf` here hands out a
guarded handle on success. -/
def syncRunG : sync.RestartableFBA → Nat → List Op →
    Except RunErr (sync.RestartableFBA × Nat)
  | r, h, [] => Except.ok (r, h)
  | r, h, op :: ops =>
    match op with
    | Op.opAlloc l =>
      match r.alloc l with
      | (none, r1) => syncRunG r1 h ops
      | (some _, r1) => syncRunG r1 (h + 1) ops
    | Op.opSlice sizeT alignT len =>
      match r.alloc_slice sizeT alignT len with
      | (none, r1) => syncRunG r1 h ops
      | (some _, r1) => syncRunG r1 (h + 1) ops
    | Op.opCreate size align val =>
      match r.create (natRep size align) val with
      | (Except.error _, r1) => syncRunG r1 h ops
      | (Except.ok _, r1) => syncRunG r1 (h + 1) ops
    | Op.opRestart => syncRunG (r.try_restard).2 h ops
    | Op.opNewBuffer b => syncRunG (r.try_new_buffer b).2 h ops
    | Op.opGetBuf =>
      match r.get_buf with
      | (none, r1) => syncRunG r1 h ops
      | (some _, r1) => syncRunG r1 (h + 1) ops
    | Op.opDrop =>
      if h = 0 then Except.error RunErr.noHandle
      else
        match sync.dropAllocatedRef r.counter with
        | none => Except.error RunErr.underflowAbort
        | some c => syncRunG { r with counter := c } (h - 1) ops

/-- Along a single-owner ghost run whose counter matches the number of
held handles, the `Drop` assertion can never fire. -/
theorem runG_no_underflow (ops : List Op) (r : RestartableFBA) (h : Nat)
    (hc : r.counter = h) :
    runG r h ops ≠ Except.error RunErr.underflowAbort := by
  induction ops generalizing r h with
  | nil => simp [runG]
  | cons op ops ih =>
    cases op with
    | opAlloc l =>
      rw [runG]
      rcases ha : r.alloc l with ⟨o, r1⟩
      have hcnt := counter_alloc r l
      rw [ha] at hcnt
      cases o with
      | none => exact ih r1 h (by simpa [hc] using hcnt)
      | some p => exact ih r1 (h + 1) (by simpa [hc] using hcnt)
    | opSlice sizeT alignT len =>
      rw [runG]
      rcases ha : r.alloc_slice sizeT alignT len with ⟨o, r1⟩
      have hcnt := counter_alloc_slice r sizeT alignT len
      rw [ha] at hcnt
      cases o with
      | none => exact ih r1 h (by simpa [hc] using hcnt)
      | some p => exact ih r1 (h + 1) (by simpa [hc] using hcnt)
    | opCreate size align val =>
      rw [runG]
      rcases ha : r.create (natRep size align) val with ⟨o, r1⟩
      have hcnt := counter_create r (natRep size align) val
      rw [ha] at hcnt
      cases o with
      | error e =>
        exact ih r1 h (by simpa [hc, Except.isOk, Except.toBool] using hcnt)
      | ok p =>
        exact ih r1 (h + 1) (by simpa [hc, Except.isOk, Except.toBool] using hcnt)
    | opRestart =>
      rw [runG]
      exact ih _ h (by rw [counter_try_restard, hc])
    | opNewBuffer b =>
      rw [runG]
      exact ih _ h (by rw [counter_try_new_buffer, hc])
    | opGetBuf =>
      rw [runG]
      exact ih _ h (by rw [get_buf_state, hc])
    | opDrop =>
      rw [runG]
      by_cases h0 : h = 0
      · simp [h0]
      · rw [if_neg h0]
        have hc1 : 1 ≤ r.counter := by omega
        simp only [dropAllocatedRef, if_pos hc1]
        exact ih _ _ (by simp only; omega)

/-- Along a thread-safe ghost run whose counter matches the number of
held handles, the `Drop` assertion can never fire. -/
theorem syncRunG_no_underflow (ops : List Op) (r : sync.RestartableFBA)
    (h : Nat) (hc : r.counter = h) :
    syncRunG r h ops ≠ Except.error RunErr.underflowAbort := by
  induction ops generalizing r h with
  | nil => simp [syncRunG]
  | cons op ops ih =>
    cases op with
    | opAlloc l =>
      rw [syncRunG]
      rcases ha : r.alloc l with ⟨o, r1⟩
      have hcnt := sync_counter_alloc r l
      rw [ha] at hcnt
      cases o with
      | none => exact ih r1 h (by simpa [hc] using hcnt)
      | some p => exact ih r1 (h + 1) (by simpa [hc] using hcnt)
    | opSlice sizeT alignT len =>
      rw [syncRunG]
      rcases ha : r.alloc_slice sizeT alignT len with ⟨o, r1⟩
      have hcnt := sync_counter_alloc_slice r sizeT alignT len
      rw [ha] at hcnt
      cases o with
      | none => exact ih r1 h (by simpa [hc] using hcnt)
      | some p => exact ih r1 (h + 1) (by simpa [hc] using hcnt)
    | opCreate size align val =>
      rw [syncRunG]
      rcases ha : r.create (natRep size align) val with ⟨o, r1⟩
      have hcnt := sync_counter_create r (natRep size align) val
      rw [ha] at hcnt
      cases o with
      | error e =>
        exact ih r1 h (by simpa [hc, Except.isOk, Except.toBool] using hcnt)
      | ok p =>
        exact ih r1 (h + 1) (by simpa [hc, Except.isOk, Except.toBool] using hcnt)
    | opRestart =>
      rw [syncRunG]
      exact ih _ h (by rw [sync_counter_try_restard, hc])
    | opNewBuffer b =>
      rw [syncRunG]
      exact ih _ h (by rw [sync_counter_try_new_buffer, hc])
    | opGetBuf =>
      rw [syncRunG]
      rcases ha : r.get_buf with ⟨o, r1⟩
      have hcnt := sync_counter_get_buf r
      rw [ha] at hcnt
      cases o with
      | none => exact ih r1 h (by simpa [hc] using hcnt)
      | some p => exact ih r1 (h + 1) (by simpa [hc] using hcnt)
    | opDrop =>
      rw [syncRunG]
      by_cases h0 : h = 0
      · simp [h0]
      · rw [if_neg h0]
        have hc1 : 1 ≤ r.counter := by omega
        simp only [sync.dropAllocatedRef, if_pos hc1]
        exact ih _ _ (by simp only; omega)

/-- C8: on destruction a guarded handle asserts the live count is at
least 1 — releasing at count 0 is a fatal abort, not an error value — and
then decrements by exactly one, identically in both variants; no other
coordinator operation ever decreases the count; and when exactly one
handle exists per successful allocation (the ghost runs, where the count
matches the held handles), the assertion branch is unreachable. -/
theorem C8_drop_assert_and_unreachable {τ : Type} (c : Nat)
    (r : RestartableFBA) (rs : sync.RestartableFBA) (l : Layout)
    (b : List Nat) (sizeT alignT len : Nat) (rep : TypeRep τ) (v : τ)
    (ops : List Op) (h : Nat) :
    ((dropAllocatedRef c).isSome ↔ 1 ≤ c) ∧
    (1 ≤ c → dropAllocatedRef c = some (c - 1)) ∧
    (sync.dropAllocatedRef c = dropAllocatedRef c) ∧
    (r.counter ≤ (r.alloc l).2.counter) ∧
    (r.counter ≤ (r.alloc_slice sizeT alignT len).2.counter) ∧
    (r.counter ≤ (r.create rep v).2.counter) ∧
    (r.counter ≤ (r.try_restard).2.counter) ∧
    (r.counter ≤ (r.try_new_buffer b).2.counter) ∧
    (r.counter ≤ (r.get_buf).2.counter) ∧
    (rs.counter ≤ (rs.alloc l).2.counter) ∧
    (rs.counter ≤ (rs.alloc_slice sizeT alignT len).2.counter) ∧
    (rs.counter ≤ (rs.create rep v).2.counter) ∧
    (rs.counter ≤ (rs.try_restard).2.counter) ∧
    (rs.counter ≤ (rs.try_new_buffer b).2.counter) ∧
    (rs.counter ≤ (rs.get_buf).2.counter) ∧
    (r.counter = h → runG r h ops ≠ Except.error RunErr.underflowAbort) ∧
    (rs.counter = h →
      syncRunG rs h ops ≠ Except.error RunErr.underflowAbort) := by
  refine ⟨?_, ?_, ?_, ?_, ?_, ?_, ?_, ?_, ?_, ?_, ?_, ?_, ?_, ?_, ?_, ?_, ?_⟩
  · unfold dropAllocatedRef
    split <;> simp_all
  · intro hc
    unfold dropAllocatedRef
    rw [if_pos hc]
  · rfl
  · rw [counter_alloc r l]; split <;> omega
  · rw [counter_alloc_slice r sizeT alignT len]; split <;> omega
  · rw [counter_create r rep v]; split <;> omega
  · rw [counter_try_restard r]
  · rw [counter_try_new_buffer r b]
  · rw [get_buf_state r]
  · rw [sync_counter_alloc rs l]; split <;> omega
  · rw [sync_counter_alloc_slice rs sizeT alignT len]; split <;> omega
  · rw [sync_counter_create rs rep v]; split <;> omega
  · rw [sync_counter_try_restard rs]
  · rw [sync_counter_try_new_buffer rs b]
  · rw [sync_counter_get_buf rs]; split <;> omega
  · intro hc
    exact runG_no_underflow ops r h hc
  · intro hc
    exact syncRunG_no_underflow ops rs h hc

/-- C8 witness: dropping at count 1 yields count 0, and concrete
allocate-then-release runs never hit the assertion in either variant. -/
theorem C8_witness :
    dropAllocatedRef 1 = some 0 ∧
    (runG (RestartableFBA.new [0, 0]) 0 [Op.opAlloc ⟨1, 1⟩, Op.opDrop]
      ≠ Except.error RunErr.underflowAbort) ∧
    (syncRunG (sync.RestartableFBA.new [0, 0]) 0 [Op.opGetBuf, Op.opDrop]
      ≠ Except.error RunErr.underflowAbort) :=
  ⟨(C8_drop_assert_and_unreachable 1 (RestartableFBA.new [0, 0])
      (sync.RestartableFBA.new [0, 0]) ⟨1, 1⟩ [] 1 1 1 u8Rep 0
      [Op.opAlloc ⟨1, 1⟩, Op.opDrop] 0).2.1 (by decide),
    (C8_drop_assert_and_unreachable 1 (RestartableFBA.new [0, 0])
      (sync.RestartableFBA.new [0, 0]) ⟨1, 1⟩ [] 1 1 1 u8Rep 0
      [Op.opAlloc ⟨1, 1⟩, Op.opDrop] 0).2.2.2.2.2.2.2.2.2.2.2.2.2.2.2.1 rfl,
    (C8_drop_assert_and_unreachable 1 (RestartableFBA.new [0, 0])
      (sync.RestartableFBA.new [0, 0]) ⟨1, 1⟩ [] 1 1 1 u8Rep 0
      [Op.opGetBuf, Op.opDrop] 0).2.2.2.2.2.2.2.2.2.2.2.2.2.2.2.2 rfl⟩

/-- `alloc_slice` for `u8` (element size 1, alignment 1) reduces to a
plain `alloc_raw` of the length. -/
theorem alloc_slice_u8 (a : FixBufferedAllocator) (len : Nat)
    (hlen : len ≤ ISIZE_MAX) :
    a.alloc_slice 1 1 len = a.alloc_raw ⟨len, 1⟩ := by
  have h1 : 1 * len < USIZE := by
    unfold ISIZE_MAX at hlen
    unfold USIZE
    omega
  have h2 : Layout.from_size_align (1 * len) 1 = some ⟨len, 1⟩ := by
    unfold Layout.from_size_align
    rw [if_pos]
    · rw [one_mul]
    · rw [show isPow2 1 = true from by decide, Bool.true_and,
        decide_eq_true_eq]
      omega
  unfold FixBufferedAllocator.alloc_slice checked_mul
  rw [if_pos h1]
  simp only [h2]

/-- On a full arena (`offset = capacity`) any request of nonzero size
fails and leaves the arena unchanged. -/
theorem alloc_raw_full_fails (a : FixBufferedAllocator) (l : Layout)
    (hfull : a.offset = a.buf.length) (hsz : 1 ≤ l.size) :
    a.alloc_raw l = (none, a) := by
  rw [alloc_raw_char, if_neg (by omega)]

/-- On a full arena `create` of a nonzero-size type hands the value back
and changes nothing. -/
theorem create_full_fails {τ : Type} (a : FixBufferedAllocator)
    (rep : TypeRep τ) (v : τ) (hfull : a.offset = a.buf.length)
    (hsz : 1 ≤ rep.size) :
    a.create rep v = (Except.error v, a) := by
  unfold FixBufferedAllocator.create FixBufferedAllocator.alloc
  simp only [alloc_raw_full_fails a ⟨rep.size, rep.align⟩ hfull hsz]

/-- The thread-safe `get_buf` at live count 0: resets the cursor, then
allocates the whole buffer as one `u8` slice, ending with
`offset = capacity` and count 1. -/
theorem sync_get_buf_success (rs : sync.RestartableFBA) (hc : rs.counter = 0)
    (hlen : rs.fba.buf.length ≤ ISIZE_MAX) :
    rs.get_buf = (some 0,
      { fba := { buf := rs.fba.buf, offset := rs.fba.buf.length },
        counter := 1 }) := by
  have hlt : rs.fba.buf.length < USIZE := by
    unfold ISIZE_MAX at hlen
    unfold USIZE
    omega
  have h2 : FixBufferedAllocator.alloc_raw ⟨rs.fba.buf, 0⟩
      ⟨rs.fba.buf.length, 1⟩ = (some 0, ⟨rs.fba.buf, rs.fba.buf.length⟩) := by
    rw [alloc_raw_char]
    have hpad : (FixBufferedAllocator.mk rs.fba.buf 0).padding 1 = 0 := by
      unfold FixBufferedAllocator.padding
      simp
    simp only [hpad]
    rw [if_pos (by constructor <;> simp [hlt])]
    simp
  have h3 : FixBufferedAllocator.alloc_slice ⟨rs.fba.buf, 0⟩ 1 1
      rs.fba.buf.length = (some 0, ⟨rs.fba.buf, rs.fba.buf.length⟩) := by
    rw [alloc_slice_u8 _ _ hlen]
    exact h2
  unfold sync.RestartableFBA.get_buf
  rw [if_neg (by simp [hc])]
  unfold sync.RestartableFBA.alloc_slice
  simp only [h3, hc]

/-- C1 (amended): `get_buf` succeeds only when the live count is 0, in
both variants. In the thread-safe variant it first resets the offset to 0
and returns a whole-buffer view that itself counts as one live
allocation, so a subsequent `create`/`alloc` of nonzero size before its
release fails with the state unchanged. In the single-owner variant it
returns the raw buffer with the coordinator state — offset and live
count — completely untouched. -/
theorem C1_get_buf_gating {τ : Type} (r : RestartableFBA)
    (rs : sync.RestartableFBA) (l : Layout) (rep : TypeRep τ) (v : τ)
    (hsz : 1 ≤ l.size) (hrsz : 1 ≤ rep.size)
    (hlen : rs.fba.buf.length ≤ ISIZE_MAX) :
    ((r.get_buf).1.isSome ↔ r.counter = 0) ∧
    ((r.get_buf).2 = r) ∧
    (r.counter = 0 → (r.get_buf).1 = some r.fba.buf) ∧
    ((rs.get_buf).1.isSome ↔ rs.counter = 0) ∧
    (rs.counter ≠ 0 → rs.get_buf = (none, rs)) ∧
    (rs.counter = 0 →
      rs.get_buf = (some 0,
        { fba := { buf := rs.fba.buf, offset := rs.fba.buf.length },
          counter := 1 }) ∧
      ((rs.get_buf).2.alloc l) = (none, (rs.get_buf).2) ∧
      ((rs.get_buf).2.create rep v) = (Except.error v, (rs.get_buf).2)) := by
  have hlib : ((r.get_buf).1.isSome ↔ r.counter = 0) ∧
      (r.get_buf).2 = r ∧
      (r.counter = 0 → (r.get_buf).1 = some r.fba.buf) := by
    unfold RestartableFBA.get_buf
    by_cases h : r.counter = 0 <;> simp [h]
  refine ⟨hlib.1, hlib.2.1, hlib.2.2, ?_, ?_, ?_⟩
  · by_cases h : rs.counter = 0
    · rw [sync_get_buf_success rs h hlen]
      simp [h]
    · unfold sync.RestartableFBA.get_buf
      simp [h]
  · intro h
    unfold sync.RestartableFBA.get_buf
    simp [h]
  · intro h
    have hg := sync_get_buf_success rs h hlen
    refine ⟨hg, ?_, ?_⟩
    · rw [hg]
      unfold sync.RestartableFBA.alloc
      simp only [FixBufferedAllocator.alloc,
        alloc_raw_full_fails ⟨rs.fba.buf, rs.fba.buf.length⟩ l rfl hsz]
    · rw [hg]
      unfold sync.RestartableFBA.create
      simp only [create_full_fails ⟨rs.fba.buf, rs.fba.buf.length⟩ rep v rfl hrsz]

/-- C1 counterexample: on the single-owner coordinator with a 2-byte
buffer, cursor 1 and no live handles, `get_buf` succeeds, yet the cursor
stays 1 (not reset to 0), the live count stays 0 (the view is not
tracked), and a subsequent `create` of a `u8` succeeds instead of
failing — refuting the claim that the single-owner variant behaves like
the thread-safe one. -/
theorem C1_counterexample :
    ((RestartableFBA.mk ⟨[0, 0], 1⟩ 0).get_buf).1.isSome = true ∧
    ((RestartableFBA.mk ⟨[0, 0], 1⟩ 0).get_buf).2.fba.offset = 1 ∧
    ((RestartableFBA.mk ⟨[0, 0], 1⟩ 0).get_buf).2.counter = 0 ∧
    (((RestartableFBA.mk ⟨[0, 0], 1⟩ 0).get_buf).2.create u8Rep 7).1
      = Except.ok 1 :=
  ⟨rfl, rfl, rfl, rfl⟩

/-- C1 witness: the amended behaviour at a concrete 2-byte arena — the
single-owner `get_buf` returns the raw buffer unchanged, the thread-safe
one returns the tracked whole-buffer view and a subsequent 1-byte `alloc`
fails. -/
theorem C1_witness :
    ((RestartableFBA.mk ⟨[3, 4], 1⟩ 0).get_buf).1 = some [3, 4] ∧
    ((sync.RestartableFBA.mk ⟨[3, 4], 1⟩ 0).get_buf
      = (some 0, ⟨⟨[3, 4], 2⟩, 1⟩) ∧
     ((sync.RestartableFBA.mk ⟨[3, 4], 1⟩ 0).get_buf).2.alloc ⟨1, 1⟩
      = (none, ((sync.RestartableFBA.mk ⟨[3, 4], 1⟩ 0).get_buf).2)) := by
  have h := C1_get_buf_gating (RestartableFBA.mk ⟨[3, 4], 1⟩ 0)
    (sync.RestartableFBA.mk ⟨[3, 4], 1⟩ 0) ⟨1, 1⟩ u8Rep 7
    (by decide) (by decide) (by decide)
  refine ⟨h.2.2.1 rfl, ?_, (h.2.2.2.2.2 rfl).2.1⟩
  exact (h.2.2.2.2.2 rfl).1

/-- The arena invariant `offset ≤ capacity` is preserved along any run of
allocations. -/
theorem runAllocs_invariant (ls : List Layout) (a : FixBufferedAllocator)
    (hinv : a.offset ≤ a.buf.length) :
    (runAllocs a ls).1.offset ≤ (runAllocs a ls).1.buf.length := by
  induction ls generalizing a with
  | nil => exact hinv
  | cons l ls ih =>
    rw [runAllocs]
    rcases h : a.alloc_raw l with ⟨o, a1⟩
    cases o with
    | none =>
      have ha1 : a1 = a := alloc_failure a l a1 h
      simp only [h]
      exact ih a1 (by rw [ha1]; exact hinv)
    | some s =>
      simp only [h]
      obtain ⟨haddr, ha1, hle, hfit, hbuf⟩ := alloc_success a l s a1 h
      exact ih a1 (by rw [ha1]; exact hfit)

/-- C4: the arena invariant `offset ≤ capacity` is preserved by every
allocation step, every successful allocation returns the range
`[addr, addr + size)`, a sub-range of `[0, offset)` right after its
creation, and along one arena generation all successful ranges are
pairwise disjoint and lie within `[0, capacity)`. -/
theorem C4_invariant_and_disjointness (a : FixBufferedAllocator)
    (ls : List Layout) (hinv : a.offset ≤ a.buf.length) :
    ((runAllocs a ls).1.offset ≤ (runAllocs a ls).1.buf.length) ∧
    ((runAllocs a ls).1.buf = a.buf) ∧
    ((runAllocs a ls).2.Pairwise (fun r1 r2 => r1.2 ≤ r2.1)) ∧
    (∀ r ∈ (runAllocs a ls).2, r.1 ≤ r.2 ∧ r.2 ≤ a.buf.length) ∧
    (∀ (b b1 : FixBufferedAllocator) (l : Layout) (s : Nat),
      b.alloc_raw l = (some s, b1) →
        b1.offset ≤ b1.buf.length ∧ s + l.size = b1.offset ∧ b.offset ≤ s) := by
  obtain ⟨hbuf, hchain⟩ := runAllocs_chained ls a
  have hfin := runAllocs_invariant ls a hinv
  refine ⟨hfin, hbuf, chained_pairwise hchain, ?_, ?_⟩
  · intro r hr
    have h1 := chained_mem hchain r hr
    have h2 : (runAllocs a ls).1.offset ≤ a.buf.length := by
      rw [← hbuf]
      exact le_trans hfin (le_of_eq rfl)
    exact ⟨h1.2.1, le_trans h1.2.2 h2⟩
  · intro b b1 l s h
    obtain ⟨haddr, hb1, hle, hfit, hbuf'⟩ := alloc_success b l s b1 h
    have h1 : b1.offset = s + l.size := by rw [hb1]
    have h2 : b1.buf.length = b.buf.length := by rw [hbuf']
    exact ⟨by omega, h1.symm, hle⟩

/-- C4 witness: capacity 5 — a 4-byte aligned request, a 1-byte request
and a failing 1-byte request yield exactly the disjoint in-bounds ranges
`[0,4)` and `[4,5)`. -/
theorem C4_witness :
    (runAllocs ⟨[0, 0, 0, 0, 0], 0⟩ [⟨4, 4⟩, ⟨1, 1⟩, ⟨1, 1⟩]).2 = [(0, 4), (4, 5)] ∧
    ((runAllocs ⟨[0, 0, 0, 0, 0], 0⟩ [⟨4, 4⟩, ⟨1, 1⟩, ⟨1, 1⟩]).2.Pairwise
      (fun r1 r2 => r1.2 ≤ r2.1)) ∧
    (∀ r ∈ (runAllocs ⟨[0, 0, 0, 0, 0], 0⟩ [⟨4, 4⟩, ⟨1, 1⟩, ⟨1, 1⟩]).2,
      r.1 ≤ r.2 ∧ r.2 ≤ 5) := by
  refine ⟨by decide, ?_, ?_⟩
  · exact (C4_invariant_and_disjointness ⟨[0, 0, 0, 0, 0], 0⟩
      [⟨4, 4⟩, ⟨1, 1⟩, ⟨1, 1⟩] (by decide)).2.2.1
  · exact (C4_invariant_and_disjointness ⟨[0, 0, 0, 0, 0], 0⟩
      [⟨4, 4⟩, ⟨1, 1⟩, ⟨1, 1⟩] (by decide)).2.2.2.1
